import Mathlib

/-!
Verification development for the `yoink` web crawler
(https://github.com/ErikkJs/yoink).

We give a shallow embedding of the crawler's core components:

* `URLFilter`, `DomainFilter`, `CombinedFilter`  — `src/yoink/filters.py`
* `Scheduler` (frontier: queue + visited/filtered sets + start domain) —
  `src/yoink/scheduler.py`
* `CheckpointManager` over an abstract line-oriented storage log —
  `src/yoink/checkpoint.py`
* `Crawler._resume_from_checkpoint` and the worker-loop body —
  `src/yoink/crawler.py`

Stateful Python methods become explicit state-passing functions; Python
sets become `Finset String`; machine integers are `Nat` (depths and
counters are non-negative throughout the source); fallible externals
(fetcher / parser / extractor) become `Except`-valued parameters.
-/

namespace Yoink

/-! ### URL parsing (modelled from Python `urllib.parse.urlsplit`) -/

/-- Take characters until one of `stops` is hit; return the prefix taken and
the rest (which starts with the stop character, if any was found). -/
def takeUntilAny (stops : List Char) : List Char → List Char × List Char
  | [] => ([], [])
  | c :: cs =>
    if c ∈ stops then ([], c :: cs)
    else
      let p := takeUntilAny stops cs
      (c :: p.1, p.2)

/-- Characters allowed in a URL scheme after the initial letter
(`urllib.parse.scheme_chars`). -/
def isSchemeChar (c : Char) : Bool :=
  c.isAlpha || c.isDigit || c = '+' || c = '-' || c = '.'

/-- Drop a leading `scheme:` from a URL, as `urlsplit` does: the part before
the first `:` counts as a scheme when it is non-empty, starts with a letter
and consists of scheme characters. -/
def dropScheme (s : List Char) : List Char :=
  let p := takeUntilAny [':'] s
  match p.2 with
  | ':' :: rest =>
    match p.1 with
    | [] => s
    | c :: cs => if c.isAlpha && cs.all isSchemeChar then rest else s
  | _ => s

/-- Split off the network location: present only when the (scheme-stripped)
URL starts with `//`; it extends to the next `/`, `?` or `#`. Returns
`(netloc, rest)`. -/
def splitNetloc (s : List Char) : List Char × List Char :=
  match s with
  | '/' :: '/' :: t => takeUntilAny ['/', '?', '#'] t
  | _ => ([], s)

/-- Modelled from Python `urllib.parse.urlparse(url).netloc`: the authority
component of the URL (empty when the URL has no `//` part). -/
def netloc (url : String) : String :=
  ⟨(splitNetloc (dropScheme url.data)).1⟩

/-- Modelled from Python `urllib.parse.urlparse(url).path`: what follows the
authority, up to the query (`?`) or fragment (`#`). -/
def urlPath (url : String) : String :=
  ⟨(takeUntilAny ['?', '#'] (splitNetloc (dropScheme url.data)).2).1⟩

/-! ### Glob matching (modelled from Python `fnmatch.fnmatch`)

`fnmatch` translates the glob to a regex and requires a full match; on a
POSIX system no case folding happens.  `*` matches any run of characters,
`?` one character, `[...]` a character class (leading `!` negates, a `]`
right after the opening is literal, `a-b` is a range); an unterminated `[`
is a literal `[`. -/

/-- Scan a character-class body: return the characters up to the closing
`]` and the rest after it, or `none` when the class is unterminated. -/
def findClose : List Char → Option (List Char × List Char)
  | [] => none
  | ']' :: t => some ([], t)
  | c :: t => (findClose t).map (fun p => (c :: p.1, p.2))

/-- Split a character class starting just after `[`: returns
`(negated, body, rest-after-the-closing-bracket)`.  `neg` is the glob
negation marker `!`; a `]` immediately after `[` (or `[!`) is literal. -/
def splitClass (negMark : Char) (s : List Char) : Option (Bool × List Char × List Char) :=
  let p : Bool × List Char :=
    match s with
    | c :: t => if c = negMark then (true, t) else (false, s)
    | [] => (false, [])
  match p.2 with
  | ']' :: t => (findClose t).map (fun q => (p.1, ']' :: q.1, q.2))
  | other => (findClose other).map (fun q => (p.1, q.1, q.2))

/-- Match a single character against a class body (ranges `a-b` included; a
`-` at the start or end of the body is literal). -/
def classMatch : List Char → Char → Bool
  | [], _ => false
  | [x], c => x = c
  | x :: '-' :: y :: rest, c =>
    (decide (x ≤ c) && decide (c ≤ y)) || classMatch rest c
  | x :: rest, c => x = c || classMatch rest c

/-- Fuel-indexed glob matcher; every recursive call shrinks
`pattern.length + s.length`, so fuel `pattern.length + s.length + 1` is
always enough. -/
def globMatchAux : Nat → List Char → List Char → Bool
  | 0, _, _ => false
  | Nat.succ fuel, pat, s =>
    match pat, s with
    | [], [] => true
    | [], _ :: _ => false
    | '*' :: ps, [] => globMatchAux fuel ps []
    | '*' :: ps, c :: cs =>
      globMatchAux fuel ps (c :: cs) || globMatchAux fuel ('*' :: ps) cs
    | '?' :: _, [] => false
    | '?' :: ps, _ :: cs => globMatchAux fuel ps cs
    | '[' :: ps, rest =>
      match splitClass '!' ps with
      | some q =>
        match rest with
        | [] => false
        | c :: cs => (q.1 != classMatch q.2.1 c) && globMatchAux fuel q.2.2 cs
      | none =>
        match rest with
        | '[' :: cs => globMatchAux fuel ps cs
        | _ => false
    | p :: ps, c :: cs => p = c && globMatchAux fuel ps cs
    | _ :: _, [] => false

/-- Modelled from Python `fnmatch.fnmatch(url, pattern)` (POSIX: no case
normalisation). -/
def fnmatch (url pattern : String) : Bool :=
  globMatchAux (pattern.length + url.length + 1) pattern.data url.data

/-! ### Regex matching (modelled from Python `re.match`)

`filters._match_pattern` routes anchored- or bracket-looking patterns to
`re.match`.  We model the regex fragment the code can meet: literals, `.`,
character classes, the `*`/`+`/`?` quantifiers, a leading `^` and `$`;
any other construct is treated like an invalid pattern, for which the
source returns `False` (it catches `re.error` and fails open). -/

inductive RAtom where
  | lit (c : Char)
  | dot
  | cls (neg : Bool) (body : List Char)
  deriving DecidableEq

inductive RTok where
  | once (a : RAtom)
  | star (a : RAtom)
  | plus (a : RAtom)
  | opt (a : RAtom)
  | endAnchor
  deriving DecidableEq

/-- Characters that would start a regex construct we do not model; a
pattern containing one where an atom is expected is treated as invalid. -/
def isRegexSpecial (c : Char) : Bool :=
  c = '(' || c = ')' || c = '|' || c = '*' || c = '+' || c = '?' ||
  c = '^' || c = '$' || c = '['

/-- Parse one regex atom; returns the atom and the rest of the pattern. -/
def parseAtom : List Char → Option (RAtom × List Char)
  | [] => none
  | '.' :: t => some (RAtom.dot, t)
  | '[' :: t => (splitClass '^' t).map (fun q => (RAtom.cls q.1 q.2.1, q.2.2))
  | '\\' :: c :: t => some (RAtom.lit c, t)
  | '\\' :: [] => none
  | c :: t => if isRegexSpecial c then none else some (RAtom.lit c, t)

/-- Attach an optional postfix quantifier to an atom. -/
def attachQuant (a : RAtom) : List Char → RTok × List Char
  | '*' :: t => (RTok.star a, t)
  | '+' :: t => (RTok.plus a, t)
  | '?' :: t => (RTok.opt a, t)
  | rest => (RTok.once a, rest)

/-- Fuel-indexed regex parser. -/
def parseRegexAux : Nat → List Char → Option (List RTok)
  | 0, _ => none
  | _ + 1, [] => some []
  | fuel + 1, '$' :: rest =>
    match rest with
    | q :: _ =>
      if q = '*' || q = '+' || q = '?' then none
      else (parseRegexAux fuel rest).map (RTok.endAnchor :: ·)
    | [] => some [RTok.endAnchor]
  | fuel + 1, s =>
    match parseAtom s with
    | none => none
    | some p =>
      let q := attachQuant p.1 p.2
      (parseRegexAux fuel q.2).map (q.1 :: ·)

/-- Test whether an atom matches one character (`.` excludes newline, as in
Python). -/
def atomMatch : RAtom → Char → Bool
  | RAtom.lit x, c => x = c
  | RAtom.dot, c => c ≠ '\n'
  | RAtom.cls neg body, c => neg != classMatch body c

/-- Fuel-indexed backtracking matcher; `re.match` succeeds as soon as the
whole pattern has matched a prefix of the input. -/
def reMatchAux : Nat → List RTok → List Char → Bool
  | 0, _, _ => false
  | _ + 1, [], _ => true
  | fuel + 1, RTok.endAnchor :: ts, s => s.isEmpty && reMatchAux fuel ts s
  | fuel + 1, RTok.once a :: ts, s =>
    match s with
    | [] => false
    | c :: cs => atomMatch a c && reMatchAux fuel ts cs
  | fuel + 1, RTok.star a :: ts, s =>
    reMatchAux fuel ts s ||
      match s with
      | [] => false
      | c :: cs => atomMatch a c && reMatchAux fuel (RTok.star a :: ts) cs
  | fuel + 1, RTok.plus a :: ts, s =>
    match s with
    | [] => false
    | c :: cs => atomMatch a c && reMatchAux fuel (RTok.star a :: ts) cs
  | fuel + 1, RTok.opt a :: ts, s =>
    reMatchAux fuel ts s ||
      match s with
      | [] => false
      | c :: cs => atomMatch a c && reMatchAux fuel ts cs

/-- Modelled from Python `bool(re.match(pattern, url))`; an invalid (or
unmodelled) pattern yields `false`, as the source's `re.error` handler
does. -/
def reMatch (pattern url : String) : Bool :=
  let pdata :=
    match pattern.data with
    | '^' :: t => t
    | other => other
  match parseRegexAux (pdata.length + 1) pdata with
  | none => false
  | some toks => reMatchAux (toks.length + url.length + 1) toks url.data

/-! ### Substring containment (Python's `pattern in url`) -/

/-- Test whether `needle` is an initial segment of `hay`. -/
def listStartsWith : List Char → List Char → Bool
  | [], _ => true
  | _ :: _, [] => false
  | a :: as, b :: bs => a = b && listStartsWith as bs

/-- Test whether `needle` occurs contiguously inside `hay`. -/
def containsAux (needle : List Char) : List Char → Bool
  | [] => listStartsWith needle []
  | c :: t => listStartsWith needle (c :: t) || containsAux needle t

/-- Modelled from Python `pattern in url` (substring containment). -/
def strContains (hay needle : String) : Bool :=
  containsAux needle.data hay.data

/-- Test whether a string contains a character (Python `c in s`). -/
def strHasChar (s : String) (c : Char) : Bool :=
  s.data.contains c

/-- Modelled from Python `str.lower()`, restricted to ASCII case folding
(URLs and extensions in the source are ASCII). -/
def strLower (s : String) : String :=
  ⟨s.data.map Char.toLower⟩

/-- Modelled from Python `str.startswith`. -/
def strStartsWith (s pre : String) : Bool :=
  listStartsWith pre.data s.data

/-- Modelled from Python `str.endswith`. -/
def strEndsWith (s suf : String) : Bool :=
  listStartsWith suf.data.reverse s.data.reverse

/-- Modelled from Python `str.lstrip('.')`. -/
def stripDots (s : String) : String :=
  ⟨s.data.dropWhile (fun c => c = '.')⟩

/-! ### URL filters (`src/yoink/filters.py`) -/

/-- Model of `filters.URLFilter`: glob/regex/substring pattern filter.  The
constructor normalises `skip_extensions` (lower-case, leading dots
stripped); `URLFilter.ofConfig` below performs that normalisation. -/
structure URLFilter where
  include_patterns : List String := []
  exclude_patterns : List String := []
  skip_extensions : List String := []
  deriving DecidableEq

/-- Model of `URLFilter.__init__`: store the patterns, normalising each skip
extension by `ext.lower().lstrip('.')`. -/
def URLFilter.ofConfig (inc exc ext : List String) : URLFilter :=
  { include_patterns := inc
    exclude_patterns := exc
    skip_extensions := ext.map (fun e => stripDots (strLower e)) }

/-- Model of `URLFilter._match_pattern`: glob when the pattern has a glob
metacharacter, regex when it looks anchored or bracketed (invalid regex
fails open to `False`), substring containment otherwise. -/
def matchPattern (url pattern : String) : Bool :=
  if strHasChar pattern '*' || strHasChar pattern '?' then fnmatch url pattern
  else if strStartsWith pattern "^" || strEndsWith pattern "$" || strHasChar pattern '[' then
    reMatch pattern url
  else strContains url pattern

/-- Model of `URLFilter.should_crawl`: extension check, then include patterns (must
match at least one when any are configured), then exclude patterns (must
match none). -/
def URLFilter.should_crawl (f : URLFilter) (url : String) : Bool :=
  if f.skip_extensions.any (fun ext => strEndsWith (strLower (urlPath url)) ("." ++ ext)) then
    false
  else if !f.include_patterns.isEmpty &&
      !f.include_patterns.any (fun p => matchPattern url p) then
    false
  else if f.exclude_patterns.any (fun p => matchPattern url p) then
    false
  else
    true

/-- Model of `filters.DomainFilter`: allow-list of domains. -/
structure DomainFilter where
  allowed_domains : List String := []
  deriving DecidableEq

/-- Model of `DomainFilter.should_crawl`: everything passes when the allow-list is
empty; otherwise the URL's authority must equal an allowed domain or end
in `.domain`. -/
def DomainFilter.should_crawl (f : DomainFilter) (url : String) : Bool :=
  if f.allowed_domains.isEmpty then true
  else
    let domain := netloc url
    f.allowed_domains.contains domain ||
      f.allowed_domains.any (fun a => strEndsWith domain ("." ++ a))

/-- Model of `filters.CombinedFilter`: optional URL filter and optional domain
filter. -/
structure CombinedFilter where
  url_filter : Option URLFilter := none
  domain_filter : Option DomainFilter := none
  deriving DecidableEq

/-- Model of `CombinedFilter.should_crawl`: domain filter first, then URL filter;
an absent filter passes. -/
def CombinedFilter.should_crawl (f : CombinedFilter) (url : String) : Bool :=
  (match f.domain_filter with
   | some df => df.should_crawl url
   | none => true) &&
  (match f.url_filter with
   | some uf => uf.should_crawl url
   | none => true)

/-! ### Frontier (`src/yoink/scheduler.py`)

The `Scheduler` holds the URL queue, the visited and filtered sets and the
start domain.  All operations run under one `asyncio.Lock`, so each method
is modelled as an atomic state transformer. -/

/-- Model of `scheduler.Scheduler` state. -/
structure Scheduler where
  max_depth : Nat
  follow_external : Bool
  url_filter : Option CombinedFilter
  queue : List (String × Nat)
  visited : Finset String
  filtered : Finset String
  start_domain : Option String
  deriving DecidableEq

/-- Model of `Scheduler.__init__`: empty queue and sets, unset start domain. -/
def Scheduler.init (max_depth : Nat) (follow_external : Bool)
    (url_filter : Option CombinedFilter) : Scheduler :=
  { max_depth := max_depth
    follow_external := follow_external
    url_filter := url_filter
    queue := []
    visited := ∅
    filtered := ∅
    start_domain := none }

/-- First step of `Scheduler.add`: set the start domain from this URL's
authority when it is still unset. -/
def Scheduler.setStart (s : Scheduler) (url : String) : Scheduler :=
  if s.start_domain = none then { s with start_domain := some (netloc url) } else s

/-- The `self.url_filter and not self.url_filter.should_crawl(url)` test of
`Scheduler.add`. -/
def Scheduler.filterRejects (s : Scheduler) (url : String) : Bool :=
  match s.url_filter with
  | some f => !f.should_crawl url
  | none => false

/-- Model of `Scheduler.add(url, depth)`: set start domain if unset; return early
when the URL is visited, the depth exceeds `max_depth`, or the URL is
external while `follow_external` is off; record a filter rejection in
`filtered`; otherwise mark visited and enqueue. -/
def Scheduler.add (s0 : Scheduler) (url : String) (depth : Nat) : Scheduler :=
  let s := s0.setStart url
  if url ∈ s.visited then s
  else if s.max_depth < depth then s
  else if s.follow_external = false ∧ s.start_domain ≠ some (netloc url) then s
  else if s.filterRejects url then { s with filtered := insert url s.filtered }
  else { s with visited := insert url s.visited, queue := s.queue ++ [(url, depth)] }

/-- Model of `Scheduler.get()`: FIFO pop; `none` when the queue is empty. -/
def Scheduler.get (s : Scheduler) : Option ((String × Nat) × Scheduler) :=
  match s.queue with
  | [] => none
  | x :: rest => some (x, { s with queue := rest })

/-- Fold a sequence of `add` calls over the scheduler. -/
def Scheduler.addAll (s : Scheduler) (l : List (String × Nat)) : Scheduler :=
  l.foldl (fun acc p => acc.add p.1 p.2) s

/-! ### Data models (`src/yoink/models.py`) -/

/-- Model of `models.Page`: one crawled page.  The `crawled_at` timestamp is an
opaque string (the source serialises it in ISO format). -/
structure Page where
  url : String
  title : Option String := none
  text : Option String := none
  html : Option String := none
  links : List String := []
  metadata : List (String × String) := []
  crawled_at : String := ""
  status_code : Nat := 200
  depth : Nat := 0
  deriving DecidableEq

/-- Model of `models.CrawlConfig`. -/
structure CrawlConfig where
  max_depth : Nat := 1
  max_pages : Nat := 100
  max_concurrency : Nat := 10
  respect_robots : Bool := true
  user_agent : String := "yoink/0.3.0 (+https://github.com/ErikkJs/yoink)"
  timeout : Nat := 30
  follow_external : Bool := false
  extract_text : Bool := true
  save_html : Bool := false
  deriving DecidableEq

/-! ### Checkpoint log (`src/yoink/checkpoint.py`)

The log is a newline-delimited sequence of tagged JSON records.  JSON
(de)serialisation of those records is modelled by the sum type `Line`:
`json.dumps` of a record corresponds to the matching constructor and the
replay loop's `json.loads` recovers it; `Line.other` stands for a parseable
line whose `type` tag is missing or unrecognised, and `Line.malformed` for
a blank line or one on which `json.loads` / record construction raises
(both `except` branches skip it). -/

/-- The `{"type": "metadata", ...}` record. -/
structure Metadata where
  start_url : String
  config : CrawlConfig
  started_at : String
  deriving DecidableEq

/-- The `{"type": "state", ...}` record (frontier snapshot). -/
structure FrontierSnapshot where
  visited : List String := []
  queue : List (String × Nat) := []
  filtered : List String := []
  saved_at : String := ""
  deriving DecidableEq

/-- One line of the checkpoint log, as the replay loop classifies it. -/
inductive Line where
  | metadata (m : Metadata)
  | page (p : Page)
  | state (st : FrontierSnapshot)
  | other
  | malformed
  deriving DecidableEq

/-- Lines that materialise into the load result; `other` and `malformed`
lines are skipped by replay. -/
def Line.isRecord : Line → Bool
  | Line.metadata _ => true
  | Line.page _ => true
  | Line.state _ => true
  | Line.other => false
  | Line.malformed => false

/-- Abstract storage backend state: the lines durably appended so far and a
count of the `flush()` calls issued (`storage.CheckpointStorage`). -/
structure Storage where
  lines : List Line := []
  flushes : Nat := 0
  deriving DecidableEq

/-- Model of `checkpoint.CheckpointManager` state: the configured flush interval and
the running `_page_count`. -/
structure CheckpointManager where
  flush_interval : Nat := 10
  page_count : Nat := 0
  deriving DecidableEq

/-- Model of `CheckpointManager.write_metadata`: append the metadata record and
flush immediately.  The `started_at` timestamp (`datetime.utcnow()`) is a
parameter. -/
def CheckpointManager.write_metadata (cm : CheckpointManager) (st : Storage)
    (start_url : String) (config : CrawlConfig) (started_at : String) :
    CheckpointManager × Storage :=
  (cm,
   { lines := st.lines ++ [Line.metadata ⟨start_url, config, started_at⟩]
     flushes := st.flushes + 1 })

/-- Model of `CheckpointManager.write_page`: append the page record, bump
`_page_count`, and flush exactly when the new count is a multiple of
`flush_interval`. -/
def CheckpointManager.write_page (cm : CheckpointManager) (st : Storage) (p : Page) :
    CheckpointManager × Storage :=
  let st1 : Storage := { st with lines := st.lines ++ [Line.page p] }
  let cm1 : CheckpointManager := { cm with page_count := cm.page_count + 1 }
  if cm1.page_count % cm1.flush_interval = 0 then
    (cm1, { st1 with flushes := st1.flushes + 1 })
  else
    (cm1, st1)

/-- Model of `CheckpointManager.write_state`: append the frontier snapshot and flush
immediately.  `visited`/`filtered` arrive as lists (`list(visited)` in the
source); `saved_at` is the timestamp parameter. -/
def CheckpointManager.write_state (cm : CheckpointManager) (st : Storage)
    (visited : List String) (queue : List (String × Nat)) (filtered : List String)
    (saved_at : String) : CheckpointManager × Storage :=
  (cm,
   { lines := st.lines ++ [Line.state ⟨visited, queue, filtered, saved_at⟩]
     flushes := st.flushes + 1 })

/-- Write a sequence of pages through `write_page`. -/
def CheckpointManager.writePages (cm : CheckpointManager) (st : Storage)
    (pgs : List Page) : CheckpointManager × Storage :=
  pgs.foldl (fun acc p => CheckpointManager.write_page acc.1 acc.2 p) (cm, st)

/-- Write a sequence of frontier snapshots through `write_state`. -/
def CheckpointManager.writeStates (cm : CheckpointManager) (st : Storage)
    (sts : List FrontierSnapshot) : CheckpointManager × Storage :=
  sts.foldl
    (fun acc r => CheckpointManager.write_state acc.1 acc.2 r.visited r.queue r.filtered r.saved_at)
    (cm, st)

/-- Fresh-crawl write sequence used by the round-trip property: a newly
constructed manager (flush interval `K`, page count 0) over empty storage
writes one metadata record, then the given pages via `write_page`, then
the given frontier snapshots via `write_state`. -/
def checkpointRun (K : Nat) (su : String) (cfg : CrawlConfig) (ts : String)
    (pgs : List Page) (sts : List FrontierSnapshot) : CheckpointManager × Storage :=
  let w1 := CheckpointManager.write_metadata ⟨K, 0⟩ ⟨[], 0⟩ su cfg ts
  let w2 := CheckpointManager.writePages w1.1 w1.2 pgs
  CheckpointManager.writeStates w2.1 w2.2 sts

/-- Result of `CheckpointManager.load`. -/
structure LoadResult where
  metadata : Option Metadata
  pages : List Page
  state : Option FrontierSnapshot
  deriving DecidableEq

/-- One iteration of the replay loop of `CheckpointManager.load`: retain
the (last) metadata, append pages in order, keep only the latest frontier
snapshot, skip everything else. -/
def loadStep (acc : LoadResult) (l : Line) : LoadResult :=
  match l with
  | Line.metadata m => { acc with metadata := some m }
  | Line.page p => { acc with pages := acc.pages ++ [p] }
  | Line.state s => { acc with state := some s }
  | Line.other => acc
  | Line.malformed => acc

/-- Replay a sequence of log lines (the `async for line in storage.read()`
loop of `CheckpointManager.load`). -/
def loadLines (lines : List Line) : LoadResult :=
  lines.foldl loadStep ⟨none, [], none⟩

/-- Model of `CheckpointManager.load`: empty result when the storage does not exist,
otherwise replay its lines. -/
def CheckpointManager.load (hasCheckpoint : Bool) (lines : List Line) : LoadResult :=
  if hasCheckpoint then loadLines lines else ⟨none, [], none⟩

/-! ### Crawler (`src/yoink/crawler.py`) -/

/-- The part of `crawler.Crawler` state that resume touches: its scheduler
and its results list. -/
structure Crawler where
  scheduler : Scheduler
  pages : List Page
  deriving DecidableEq

/-- Model of `Crawler._resume_from_checkpoint`: replay the log, restore the results
list from the page records, then either restore the scheduler from the
latest snapshot or — when no snapshot exists — re-seed the scheduler by
adding the start URL at depth 0.

In the snapshot branch the source reads `list(self.scheduler.visited)[0]`,
an arbitrary element of the set; resume always runs on a freshly
constructed `Scheduler`, whose visited set is exactly the snapshot's
visited list, modelled here by that list's head. -/
def Crawler.resumeFromCheckpoint (c : Crawler) (start_url : String)
    (lines : List Line) : Crawler :=
  let data := loadLines lines
  let c1 : Crawler := { c with pages := data.pages }
  match data.state with
  | none => { c1 with scheduler := c1.scheduler.add start_url 0 }
  | some snap =>
    let sch := c1.scheduler
    let sch := { sch with visited := snap.visited.foldl (fun v u => insert u v) sch.visited }
    let sch := { sch with filtered := snap.filtered.foldl (fun v u => insert u v) sch.filtered }
    let sch := { sch with queue := sch.queue ++ snap.queue }
    let sch :=
      if sch.queue ≠ [] ∨ sch.visited ≠ ∅ then
        let first_url :=
          match snap.visited with
          | u :: _ => u
          | [] => (sch.queue.headD ("", 0)).1
        { sch with start_domain := some (netloc first_url) }
      else sch
    { c1 with scheduler := sch }

/-- Model of `parser.Parser.parse` result as the worker consumes it. -/
structure Parsed where
  title : Option String := none
  links : List String := []
  metadata : List (String × String) := []
  deriving DecidableEq

/-- Shared crawl state a worker mutates while processing one queue item. -/
structure CrawlState where
  scheduler : Scheduler
  pages : List Page
  cm : CheckpointManager
  storage : Storage
  deriving DecidableEq

/-- Body of `Crawler._worker` for one popped `(url, depth)` — the `try`
block guarded by `except Exception`: fetch, parse, optionally extract,
build the `Page`, append it to the results, write it to the checkpoint
when one is configured, and admit every discovered link at `depth + 1`.
A failure of fetch, parse or extract lands in the `except` branch, which
only logs: the state is returned unchanged and the loop proceeds to the
next item.  Fetcher, parser and extractor are external collaborators,
passed as `Except`-valued functions; `crawled_at` is the page-creation
timestamp. -/
def workerStep (cfg : CrawlConfig)
    (fetch : String → Except String (String × Nat))
    (parse : String → String → Except String Parsed)
    (extract : String → String → Except String String)
    (checkpointing : Bool)
    (st : CrawlState) (url : String) (depth : Nat) (crawled_at : String) :
    CrawlState :=
  match fetch url with
  | Except.error _ => st
  | Except.ok fr =>
    match parse fr.1 url with
    | Except.error _ => st
    | Except.ok parsed =>
      match (if cfg.extract_text then (extract fr.1 url).map some else Except.ok none) with
      | Except.error _ => st
      | Except.ok text =>
        let page : Page :=
          { url := url
            title := parsed.title
            text := text
            html := if cfg.save_html then some fr.1 else none
            links := parsed.links
            metadata := parsed.metadata
            crawled_at := crawled_at
            status_code := fr.2
            depth := depth }
        let st1 : CrawlState := { st with pages := st.pages ++ [page] }
        let w :=
          if checkpointing then CheckpointManager.write_page st1.cm st1.storage page
          else (st1.cm, st1.storage)
        let st2 : CrawlState := { st1 with cm := w.1, storage := w.2 }
        { st2 with
          scheduler := st2.scheduler.addAll (parsed.links.map (fun l => (l, depth + 1))) }

/-! ### Helper lemmas about the frontier -/

@[simp] theorem Scheduler.setStart_queue (s : Scheduler) (url : String) :
    (s.setStart url).queue = s.queue := by
  unfold Scheduler.setStart; split <;> rfl

@[simp] theorem Scheduler.setStart_visited (s : Scheduler) (url : String) :
    (s.setStart url).visited = s.visited := by
  unfold Scheduler.setStart; split <;> rfl

@[simp] theorem Scheduler.setStart_filtered (s : Scheduler) (url : String) :
    (s.setStart url).filtered = s.filtered := by
  unfold Scheduler.setStart; split <;> rfl

@[simp] theorem Scheduler.setStart_max_depth (s : Scheduler) (url : String) :
    (s.setStart url).max_depth = s.max_depth := by
  unfold Scheduler.setStart; split <;> rfl

@[simp] theorem Scheduler.setStart_follow (s : Scheduler) (url : String) :
    (s.setStart url).follow_external = s.follow_external := by
  unfold Scheduler.setStart; split <;> rfl

@[simp] theorem Scheduler.setStart_filter (s : Scheduler) (url : String) :
    (s.setStart url).url_filter = s.url_filter := by
  unfold Scheduler.setStart; split <;> rfl

@[simp] theorem Scheduler.setStart_rejects (s : Scheduler) (url u : String) :
    (s.setStart url).filterRejects u = s.filterRejects u := by
  unfold Scheduler.filterRejects
  rw [Scheduler.setStart_filter]

/-- Setting the start domain: it becomes this URL's authority when unset
and is untouched otherwise. -/
theorem Scheduler.setStart_domain (s : Scheduler) (url : String) :
    (s.start_domain = none ∧ (s.setStart url).start_domain = some (netloc url)) ∨
      (s.start_domain ≠ none ∧ (s.setStart url).start_domain = s.start_domain) := by
  unfold Scheduler.setStart
  by_cases h : s.start_domain = none
  · exact Or.inl ⟨h, by rw [if_pos h]⟩
  · exact Or.inr ⟨h, by rw [if_neg h]⟩

/-- Branch 1 of `add`: an already-visited URL returns early. -/
theorem Scheduler.add_of_visited (s : Scheduler) (url : String) (depth : Nat)
    (h : url ∈ s.visited) : s.add url depth = s.setStart url := by
  have h' : url ∈ (s.setStart url).visited := by rw [Scheduler.setStart_visited]; exact h
  unfold Scheduler.add
  simp only [if_pos h']

/-- Branch 2 of `add`: a depth beyond `max_depth` returns early. -/
theorem Scheduler.add_of_depth (s : Scheduler) (url : String) (depth : Nat)
    (h1 : url ∉ s.visited) (h2 : s.max_depth < depth) :
    s.add url depth = s.setStart url := by
  have h1' : url ∉ (s.setStart url).visited := by rw [Scheduler.setStart_visited]; exact h1
  have h2' : (s.setStart url).max_depth < depth := by rw [Scheduler.setStart_max_depth]; exact h2
  unfold Scheduler.add
  simp only [if_neg h1', if_pos h2']

/-- Branch 3 of `add`: an external URL returns early when
`follow_external` is off. -/
theorem Scheduler.add_of_external (s : Scheduler) (url : String) (depth : Nat)
    (h1 : url ∉ s.visited) (h2 : depth ≤ s.max_depth)
    (h3 : s.follow_external = false)
    (h4 : (s.setStart url).start_domain ≠ some (netloc url)) :
    s.add url depth = s.setStart url := by
  have h1' : url ∉ (s.setStart url).visited := by rw [Scheduler.setStart_visited]; exact h1
  have h2' : ¬ (s.setStart url).max_depth < depth := by
    rw [Scheduler.setStart_max_depth]; exact Nat.not_lt.mpr h2
  have h3' : (s.setStart url).follow_external = false ∧
      (s.setStart url).start_domain ≠ some (netloc url) := by
    rw [Scheduler.setStart_follow]; exact ⟨h3, h4⟩
  unfold Scheduler.add
  simp only [if_neg h1', if_neg h2', if_pos h3']

/-- Branch 4 of `add`: a URL the filter rejects goes to `filtered` only. -/
theorem Scheduler.add_of_filter (s : Scheduler) (url : String) (depth : Nat)
    (h1 : url ∉ s.visited) (h2 : depth ≤ s.max_depth)
    (h3 : ¬(s.follow_external = false ∧ (s.setStart url).start_domain ≠ some (netloc url)))
    (h4 : s.filterRejects url = true) :
    s.add url depth = { s.setStart url with filtered := insert url s.filtered } := by
  have h1' : url ∉ (s.setStart url).visited := by rw [Scheduler.setStart_visited]; exact h1
  have h2' : ¬ (s.setStart url).max_depth < depth := by
    rw [Scheduler.setStart_max_depth]; exact Nat.not_lt.mpr h2
  have h3' : ¬((s.setStart url).follow_external = false ∧
      (s.setStart url).start_domain ≠ some (netloc url)) := by
    rw [Scheduler.setStart_follow]; exact h3
  have h4' : (s.setStart url).filterRejects url = true := by
    rw [Scheduler.setStart_rejects]; exact h4
  unfold Scheduler.add
  simp only [if_neg h1', if_neg h2', if_neg h3', h4', if_pos, Scheduler.setStart_filtered]

/-- Branch 5 of `add`: an admitted URL is marked visited and enqueued at
the back of the queue. -/
theorem Scheduler.add_admit (s : Scheduler) (url : String) (depth : Nat)
    (h1 : url ∉ s.visited) (h2 : depth ≤ s.max_depth)
    (h3 : ¬(s.follow_external = false ∧ (s.setStart url).start_domain ≠ some (netloc url)))
    (h4 : s.filterRejects url = false) :
    s.add url depth =
      { s.setStart url with
        visited := insert url s.visited
        queue := s.queue ++ [(url, depth)] } := by
  have h1' : url ∉ (s.setStart url).visited := by rw [Scheduler.setStart_visited]; exact h1
  have h2' : ¬ (s.setStart url).max_depth < depth := by
    rw [Scheduler.setStart_max_depth]; exact Nat.not_lt.mpr h2
  have h3' : ¬((s.setStart url).follow_external = false ∧
      (s.setStart url).start_domain ≠ some (netloc url)) := by
    rw [Scheduler.setStart_follow]; exact h3
  have h4' : ¬ (s.setStart url).filterRejects url = true := by
    rw [Scheduler.setStart_rejects, h4]; exact Bool.false_ne_true
  unfold Scheduler.add
  simp only [if_neg h1', if_neg h2', if_neg h3', if_neg h4', Scheduler.setStart_visited,
    Scheduler.setStart_queue]
  rw [if_neg h1]

/-- Exhaustive case description of `add`: it rejects (returning the
start-domain-adjusted state), records a filter rejection, or admits. -/
theorem Scheduler.add_cases_eq (s : Scheduler) (url : String) (depth : Nat) :
    s.add url depth = s.setStart url ∨
    s.add url depth = { s.setStart url with filtered := insert url s.filtered } ∨
    (s.add url depth =
        { s.setStart url with
          visited := insert url s.visited
          queue := s.queue ++ [(url, depth)] } ∧
      depth ≤ s.max_depth ∧ url ∉ s.visited) := by
  by_cases h1 : url ∈ s.visited
  · exact Or.inl (Scheduler.add_of_visited s url depth h1)
  · by_cases h2 : s.max_depth < depth
    · exact Or.inl (Scheduler.add_of_depth s url depth h1 h2)
    · have h2' : depth ≤ s.max_depth := Nat.not_lt.mp h2
      by_cases h3 : s.follow_external = false ∧
          (s.setStart url).start_domain ≠ some (netloc url)
      · exact Or.inl (Scheduler.add_of_external s url depth h1 h2' h3.1 h3.2)
      · by_cases h4 : s.filterRejects url = true
        · exact Or.inr (Or.inl (Scheduler.add_of_filter s url depth h1 h2' h3 h4))
        · exact Or.inr (Or.inr
            ⟨Scheduler.add_admit s url depth h1 h2' h3 (Bool.eq_false_iff.mpr h4), h2', h1⟩)

/-- The visited set after `add` is the old one or the old one plus this
URL. -/
theorem Scheduler.add_visited_cases (s : Scheduler) (url : String) (depth : Nat) :
    (s.add url depth).visited = s.visited ∨
      (s.add url depth).visited = insert url s.visited := by
  rcases Scheduler.add_cases_eq s url depth with h | h | ⟨h, _, _⟩ <;>
    rw [h] <;> simp

/-- The queue after `add` is unchanged or gains exactly `(url, depth)` at
the back, and in the latter case `depth` respects `max_depth`. -/
theorem Scheduler.add_queue_cases (s : Scheduler) (url : String) (depth : Nat) :
    (s.add url depth).queue = s.queue ∨
      ((s.add url depth).queue = s.queue ++ [(url, depth)] ∧ depth ≤ s.max_depth) := by
  rcases Scheduler.add_cases_eq s url depth with h | h | ⟨h, hd, _⟩
  · rw [h]; exact Or.inl (Scheduler.setStart_queue s url)
  · rw [h]; exact Or.inl (Scheduler.setStart_queue s url)
  · rw [h]; exact Or.inr ⟨rfl, hd⟩

@[simp] theorem Scheduler.add_max_depth (s : Scheduler) (url : String) (depth : Nat) :
    (s.add url depth).max_depth = s.max_depth := by
  rcases Scheduler.add_cases_eq s url depth with h | h | ⟨h, _, _⟩ <;> rw [h] <;> simp

/-- `add` never removes anything from the visited set. -/
theorem Scheduler.add_visited_subset (s : Scheduler) (url : String) (depth : Nat) :
    s.visited ⊆ (s.add url depth).visited := by
  rcases Scheduler.add_visited_cases s url depth with h | h
  · rw [h]
  · rw [h]; exact Finset.subset_insert _ _

theorem Scheduler.addAll_cons (s : Scheduler) (p : String × Nat) (t : List (String × Nat)) :
    s.addAll (p :: t) = (s.add p.1 p.2).addAll t := rfl

/-- A sequence of `add` calls never removes anything from the visited
set. -/
theorem Scheduler.addAll_visited_mono (l : List (String × Nat)) :
    ∀ s : Scheduler, s.visited ⊆ (s.addAll l).visited := by
  induction l with
  | nil => intro s; exact Finset.Subset.refl _
  | cons p t ih =>
    intro s
    rw [Scheduler.addAll_cons]
    exact (Scheduler.add_visited_subset s p.1 p.2).trans (ih (s.add p.1 p.2))

/-- Every URL visited after a sequence of `add` calls was visited before
or occurs among the added URLs. -/
theorem Scheduler.addAll_visited_mem (l : List (String × Nat)) :
    ∀ (s : Scheduler) (x : String), x ∈ (s.addAll l).visited →
      x ∈ s.visited ∨ x ∈ l.map Prod.fst := by
  induction l with
  | nil => intro s x hx; exact Or.inl hx
  | cons p t ih =>
    intro s x hx
    rw [Scheduler.addAll_cons] at hx
    rcases ih (s.add p.1 p.2) x hx with h | h
    · rcases Scheduler.add_visited_cases s p.1 p.2 with he | he
      · rw [he] at h; exact Or.inl h
      · rw [he] at h
        rcases Finset.mem_insert.mp h with rfl | h
        · exact Or.inr (by simp)
        · exact Or.inl h
    · exact Or.inr (by simp [h])

/-- The visited set grows by at most one element per distinct added
URL. -/
theorem Scheduler.addAll_visited_card (s : Scheduler) (l : List (String × Nat)) :
    (s.addAll l).visited.card ≤ s.visited.card + (l.map Prod.fst).toFinset.card := by
  have hsub : (s.addAll l).visited ⊆ s.visited ∪ (l.map Prod.fst).toFinset := by
    intro x hx
    rcases Scheduler.addAll_visited_mem l s x hx with h | h
    · exact Finset.mem_union_left _ h
    · exact Finset.mem_union_right _ (List.mem_toFinset.mpr h)
  exact le_trans (Finset.card_le_card hsub) (Finset.card_union_le _ _)

/-! ### Helper lemmas about the checkpoint log -/

theorem CheckpointManager.write_page_fst (cm : CheckpointManager) (st : Storage) (p : Page) :
    (CheckpointManager.write_page cm st p).1 = { cm with page_count := cm.page_count + 1 } := by
  unfold CheckpointManager.write_page
  dsimp only
  split <;> rfl

theorem CheckpointManager.write_page_lines (cm : CheckpointManager) (st : Storage) (p : Page) :
    ((CheckpointManager.write_page cm st p).2).lines = st.lines ++ [Line.page p] := by
  unfold CheckpointManager.write_page
  dsimp only
  split <;> rfl

theorem CheckpointManager.write_page_flushes (cm : CheckpointManager) (st : Storage) (p : Page) :
    ((CheckpointManager.write_page cm st p).2).flushes =
      st.flushes + (if (cm.page_count + 1) % cm.flush_interval = 0 then 1 else 0) := by
  unfold CheckpointManager.write_page
  dsimp only
  split <;> rfl

theorem CheckpointManager.writePages_cons (cm : CheckpointManager) (st : Storage)
    (p : Page) (t : List Page) :
    CheckpointManager.writePages cm st (p :: t) =
      CheckpointManager.writePages (CheckpointManager.write_page cm st p).1
        (CheckpointManager.write_page cm st p).2 t := rfl

theorem CheckpointManager.writePages_lines (pgs : List Page) :
    ∀ (cm : CheckpointManager) (st : Storage),
      ((CheckpointManager.writePages cm st pgs).2).lines = st.lines ++ pgs.map Line.page := by
  induction pgs with
  | nil => intro cm st; simp [CheckpointManager.writePages]
  | cons p t ih =>
    intro cm st
    rw [CheckpointManager.writePages_cons, ih, CheckpointManager.write_page_lines]
    simp

/-- Flush count over a run of `write_page` calls: the number of multiples
of `flush_interval` crossed by the page counter. -/
theorem CheckpointManager.writePages_flushes (pgs : List Page) :
    ∀ (cm : CheckpointManager) (st : Storage), 0 < cm.flush_interval →
      ((CheckpointManager.writePages cm st pgs).2).flushes =
        st.flushes +
          ((cm.page_count + pgs.length) / cm.flush_interval -
            cm.page_count / cm.flush_interval) := by
  induction pgs with
  | nil => intro cm st _; simp [CheckpointManager.writePages]
  | cons p t ih =>
    intro cm st hK
    rw [CheckpointManager.writePages_cons]
    have hfst := CheckpointManager.write_page_fst cm st p
    have hK' : 0 < (CheckpointManager.write_page cm st p).1.flush_interval := by
      rw [hfst]; exact hK
    rw [ih _ _ hK', CheckpointManager.write_page_flushes, hfst]
    have hsucc := Nat.succ_div cm.page_count cm.flush_interval
    have hdvd : cm.flush_interval ∣ (cm.page_count + 1) ↔
        (cm.page_count + 1) % cm.flush_interval = 0 :=
      Nat.dvd_iff_mod_eq_zero
    have hm1 : cm.page_count / cm.flush_interval ≤
        (cm.page_count + 1) / cm.flush_interval :=
      Nat.div_le_div_right (Nat.le_succ _)
    have hm2 : (cm.page_count + 1) / cm.flush_interval ≤
        (cm.page_count + 1 + t.length) / cm.flush_interval :=
      Nat.div_le_div_right (Nat.le_add_right _ _)
    have harg : cm.page_count + (t.length + 1) = cm.page_count + 1 + t.length := by omega
    simp only [List.length_cons, harg]
    by_cases hmod : (cm.page_count + 1) % cm.flush_interval = 0
    · rw [if_pos hmod]
      rw [if_pos (hdvd.mpr hmod)] at hsucc
      omega
    · rw [if_neg hmod]
      rw [if_neg (fun hd => hmod (hdvd.mp hd))] at hsucc
      omega

theorem CheckpointManager.writeStates_cons (cm : CheckpointManager) (st : Storage)
    (r : FrontierSnapshot) (t : List FrontierSnapshot) :
    CheckpointManager.writeStates cm st (r :: t) =
      CheckpointManager.writeStates
        (CheckpointManager.write_state cm st r.visited r.queue r.filtered r.saved_at).1
        (CheckpointManager.write_state cm st r.visited r.queue r.filtered r.saved_at).2 t := rfl

theorem CheckpointManager.writeStates_lines (sts : List FrontierSnapshot) :
    ∀ (cm : CheckpointManager) (st : Storage),
      ((CheckpointManager.writeStates cm st sts).2).lines = st.lines ++ sts.map Line.state := by
  induction sts with
  | nil => intro cm st; simp [CheckpointManager.writeStates]
  | cons r t ih =>
    intro cm st
    rw [CheckpointManager.writeStates_cons, ih]
    simp [CheckpointManager.write_state]

/-- The log produced by the fresh-crawl write sequence. -/
theorem checkpointRun_lines (K : Nat) (su : String) (cfg : CrawlConfig) (ts : String)
    (pgs : List Page) (sts : List FrontierSnapshot) :
    ((checkpointRun K su cfg ts pgs sts).2).lines =
      Line.metadata ⟨su, cfg, ts⟩ :: (pgs.map Line.page ++ sts.map Line.state) := by
  simp only [checkpointRun]
  rw [CheckpointManager.writeStates_lines, CheckpointManager.writePages_lines]
  rfl

/-! ### Helper lemmas about replay -/

theorem foldl_loadStep_pages (pgs : List Page) :
    ∀ acc : LoadResult,
      (pgs.map Line.page).foldl loadStep acc = { acc with pages := acc.pages ++ pgs } := by
  induction pgs with
  | nil => intro acc; simp
  | cons p t ih =>
    intro acc
    rw [List.map_cons, List.foldl_cons, ih]
    simp [loadStep]

theorem foldl_loadStep_states (sts : List FrontierSnapshot) (h : sts ≠ []) :
    ∀ acc : LoadResult,
      (sts.map Line.state).foldl loadStep acc = { acc with state := some (sts.getLast h) } := by
  induction sts with
  | nil => exact absurd rfl h
  | cons r t ih =>
    intro acc
    cases t with
    | nil => simp [loadStep]
    | cons r2 t2 =>
      have h2 : r2 :: t2 ≠ [] := List.cons_ne_nil _ _
      rw [List.map_cons, List.foldl_cons]
      show (List.map Line.state (r2 :: t2)).foldl loadStep (loadStep acc (Line.state r)) = _
      rw [ih h2]
      simp [loadStep, List.getLast_cons h2]

/-- Replay ignores the lines it cannot materialise: folding over a log
equals folding over its well-formed records only. -/
theorem foldl_loadStep_filter (l : List Line) :
    ∀ acc : LoadResult,
      l.foldl loadStep acc = (l.filter Line.isRecord).foldl loadStep acc := by
  induction l with
  | nil => intro acc; rfl
  | cons x t ih =>
    intro acc
    cases x <;>
      simp only [List.foldl_cons, List.filter_cons, Line.isRecord, if_pos, if_neg,
        Bool.false_eq_true, ite_false, ite_true, loadStep] <;>
      exact ih _

/-! ### The claims -/

/-- C1: `Scheduler.add(url, depth)` first sets the start domain from the
URL's authority when it is unset (that step touches no frontier field);
then the checks short-circuit in order: the call leaves the frontier
unchanged when the URL is already visited, or when the depth exceeds
`max_depth`, or when `follow_external` is off and the URL's authority
differs from the start domain; a URL the filter rejects is added to the
filtered set and nothing is enqueued; otherwise the URL is marked visited
and `(url, depth)` is appended to the back of the queue. -/
theorem C1_add_ordered_checks (s : Scheduler) (url : String) (depth : Nat) :
    ((s.start_domain = none → (s.setStart url).start_domain = some (netloc url)) ∧
      (s.start_domain ≠ none → (s.setStart url).start_domain = s.start_domain) ∧
      (s.setStart url).queue = s.queue ∧
      (s.setStart url).visited = s.visited ∧
      (s.setStart url).filtered = s.filtered) ∧
    (url ∈ s.visited → s.add url depth = s.setStart url) ∧
    (url ∉ s.visited → s.max_depth < depth → s.add url depth = s.setStart url) ∧
    (url ∉ s.visited → depth ≤ s.max_depth → s.follow_external = false →
      (s.setStart url).start_domain ≠ some (netloc url) →
      s.add url depth = s.setStart url) ∧
    (url ∉ s.visited → depth ≤ s.max_depth →
      ¬(s.follow_external = false ∧ (s.setStart url).start_domain ≠ some (netloc url)) →
      s.filterRejects url = true →
      s.add url depth = { s.setStart url with filtered := insert url s.filtered }) ∧
    (url ∉ s.visited → depth ≤ s.max_depth →
      ¬(s.follow_external = false ∧ (s.setStart url).start_domain ≠ some (netloc url)) →
      s.filterRejects url = false →
      s.add url depth =
        { s.setStart url with
          visited := insert url s.visited
          queue := s.queue ++ [(url, depth)] }) := by
  refine ⟨⟨?_, ?_, Scheduler.setStart_queue s url, Scheduler.setStart_visited s url,
      Scheduler.setStart_filtered s url⟩, ?_, ?_, ?_, ?_, ?_⟩
  · intro h
    rcases Scheduler.setStart_domain s url with ⟨_, h2⟩ | ⟨h1, _⟩
    · exact h2
    · exact absurd h h1
  · intro h
    rcases Scheduler.setStart_domain s url with ⟨h1, _⟩ | ⟨_, h2⟩
    · exact absurd h1 h
    · exact h2
  · exact Scheduler.add_of_visited s url depth
  · exact Scheduler.add_of_depth s url depth
  · exact Scheduler.add_of_external s url depth
  · exact Scheduler.add_of_filter s url depth
  · exact Scheduler.add_admit s url depth

/-- Witness for C1: on a fresh scheduler, an admissible URL is marked
visited and enqueued at depth 0. -/
theorem C1_add_ordered_checks_witness :
    (Scheduler.init 1 false none).add "https://a.test/page" 0 =
      { (Scheduler.init 1 false none).setStart "https://a.test/page" with
        visited := insert "https://a.test/page" ∅
        queue := [("https://a.test/page", 0)] } :=
  (C1_add_ordered_checks (Scheduler.init 1 false none) "https://a.test/page" 0).2.2.2.2.2
    (by decide) (by decide) (by decide) rfl

/-- C2: once a URL is in the visited set (in particular once an `add`
admitted it), every later `add` of that URL — after any interleaved `add`
calls — leaves the queue, the visited set and the filtered set unchanged;
and over any sequence of `add` calls the visited set grows by at most one
element per distinct URL. -/
theorem C2_admit_once (s : Scheduler) (u : String) (d : Nat)
    (hadm : u ∈ (s.add u d).visited) :
    (∀ (l : List (String × Nat)) (d' : Nat),
        (((s.add u d).addAll l).add u d').queue = ((s.add u d).addAll l).queue ∧
        (((s.add u d).addAll l).add u d').visited = ((s.add u d).addAll l).visited ∧
        (((s.add u d).addAll l).add u d').filtered = ((s.add u d).addAll l).filtered) ∧
    (∀ l : List (String × Nat),
        (s.addAll l).visited.card ≤ s.visited.card + (l.map Prod.fst).toFinset.card) := by
  constructor
  · intro l d'
    have hu : u ∈ ((s.add u d).addAll l).visited :=
      Scheduler.addAll_visited_mono l (s.add u d) hadm
    rw [Scheduler.add_of_visited ((s.add u d).addAll l) u d' hu]
    exact ⟨Scheduler.setStart_queue _ _, Scheduler.setStart_visited _ _,
      Scheduler.setStart_filtered _ _⟩
  · exact Scheduler.addAll_visited_card s

/-- Witness for C2: after a fresh scheduler admits a URL at depth 0, a
repeated `add` of the same URL at depth 1 changes nothing. -/
theorem C2_admit_once_witness :
    (((Scheduler.init 1 false none).add "https://a.test/" 0).add "https://a.test/" 1).queue =
      ((Scheduler.init 1 false none).add "https://a.test/" 0).queue :=
  ((C2_admit_once (Scheduler.init 1 false none) "https://a.test/" 0 (by decide)).1 [] 1).1

/-- C5: every queue entry respects `max_depth`: the invariant is preserved
by `add` (which rejects any deeper candidate and, when the other checks
pass, admits a candidate at exactly `max_depth`) and by `get`, the only
other queue operation. -/
theorem C5_depth_invariant (s : Scheduler) (url : String) (depth : Nat)
    (hinv : ∀ p ∈ s.queue, p.2 ≤ s.max_depth) :
    (∀ p ∈ (s.add url depth).queue, p.2 ≤ (s.add url depth).max_depth) ∧
    (s.max_depth < depth → (s.add url depth).queue = s.queue) ∧
    (url ∉ s.visited →
      ¬(s.follow_external = false ∧ (s.setStart url).start_domain ≠ some (netloc url)) →
      s.filterRejects url = false →
      (s.add url s.max_depth).queue = s.queue ++ [(url, s.max_depth)]) ∧
    (∀ it s', s.get = some (it, s') → ∀ p ∈ s'.queue, p.2 ≤ s'.max_depth) := by
  refine ⟨?_, ?_, ?_, ?_⟩
  · intro p hp
    rw [Scheduler.add_max_depth]
    rcases Scheduler.add_queue_cases s url depth with h | ⟨h, hd⟩
    · rw [h] at hp; exact hinv p hp
    · rw [h] at hp
      rcases List.mem_append.mp hp with hp | hp
      · exact hinv p hp
      · rw [List.mem_singleton.mp hp]; exact hd
  · intro hlt
    by_cases hv : url ∈ s.visited
    · rw [Scheduler.add_of_visited s url depth hv]; exact Scheduler.setStart_queue s url
    · rw [Scheduler.add_of_depth s url depth hv hlt]; exact Scheduler.setStart_queue s url
  · intro h1 h3 h4
    rw [Scheduler.add_admit s url s.max_depth h1 (le_refl _) h3 h4]
  · intro it s' hget p hp
    unfold Scheduler.get at hget
    cases hq : s.queue with
    | nil => rw [hq] at hget; cases hget
    | cons x rest =>
      rw [hq] at hget
      rw [Option.some.injEq, Prod.ext_iff] at hget
      obtain ⟨-, h2⟩ := hget
      dsimp only at h2
      rw [← h2] at hp ⊢
      exact hinv p (by rw [hq]; exact List.mem_cons_of_mem x hp)

/-- Witness for C5: with `max_depth = 2` a depth-3 candidate leaves the
queue empty and a depth-2 candidate is enqueued. -/
theorem C5_depth_invariant_witness :
    ((Scheduler.init 2 true none).add "https://a.test/b" 3).queue = [] ∧
    ((Scheduler.init 2 true none).add "https://a.test/b" 2).queue = [("https://a.test/b", 2)] := by
  have hinv : ∀ p ∈ (Scheduler.init 2 true none).queue,
      p.2 ≤ (Scheduler.init 2 true none).max_depth := by decide
  exact ⟨(C5_depth_invariant (Scheduler.init 2 true none) "https://a.test/b" 3 hinv).2.1
      (by decide),
    (C5_depth_invariant (Scheduler.init 2 true none) "https://a.test/b" 0 hinv).2.2.1
      (by decide) (by decide) rfl⟩

/-- C9: whenever a URL matches some exclude pattern, `should_crawl` is
`False`, regardless of the include patterns (exclude overrides include). -/
theorem C9_exclude_overrides (f : URLFilter) (url p : String)
    (hp : p ∈ f.exclude_patterns) (hm : matchPattern url p = true) :
    f.should_crawl url = false := by
  unfold URLFilter.should_crawl
  split_ifs with h1 h2 h3
  · rfl
  · rfl
  · rfl
  · exact absurd (List.any_eq_true.mpr ⟨p, hp, hm⟩) h3

/-- Witness for C9: with `include=["*/blog/*"]` and
`exclude=["*/private/*"]`, a URL under `/blog/private/` matches the
include pattern yet is rejected. -/
theorem C9_exclude_overrides_witness :
    matchPattern "https://site.test/blog/private/post" "*/blog/*" = true ∧
    (URLFilter.mk ["*/blog/*"] ["*/private/*"] []).should_crawl
      "https://site.test/blog/private/post" = false :=
  ⟨by decide,
    C9_exclude_overrides (URLFilter.mk ["*/blog/*"] ["*/private/*"] [])
      "https://site.test/blog/private/post" "*/private/*" (by decide) (by decide)⟩

/-- C10: when `add` rejects a candidate as already visited, too deep, or
external, the queue, visited set and filtered set are all unchanged (the
start domain may only be set when it was unset); in particular a URL
rejected for depth is not marked visited. -/
theorem C10_reject_frame (s : Scheduler) (url : String) (depth : Nat)
    (h : url ∈ s.visited ∨ s.max_depth < depth ∨
      (s.follow_external = false ∧ (s.setStart url).start_domain ≠ some (netloc url))) :
    (s.add url depth).queue = s.queue ∧
    (s.add url depth).visited = s.visited ∧
    (s.add url depth).filtered = s.filtered ∧
    ((s.start_domain = none ∧ (s.add url depth).start_domain = some (netloc url)) ∨
      (s.add url depth).start_domain = s.start_domain) ∧
    (url ∉ s.visited → url ∉ (s.add url depth).visited) := by
  have he : s.add url depth = s.setStart url := by
    by_cases h1 : url ∈ s.visited
    · exact Scheduler.add_of_visited s url depth h1
    · by_cases h2 : s.max_depth < depth
      · exact Scheduler.add_of_depth s url depth h1 h2
      · rcases h with h | h | h
        · exact absurd h h1
        · exact absurd h h2
        · exact Scheduler.add_of_external s url depth h1 (Nat.not_lt.mp h2) h.1 h.2
  rw [he]
  refine ⟨Scheduler.setStart_queue s url, Scheduler.setStart_visited s url,
    Scheduler.setStart_filtered s url, ?_, ?_⟩
  · rcases Scheduler.setStart_domain s url with ⟨h1, h2⟩ | ⟨_, h2⟩
    · exact Or.inl ⟨h1, h2⟩
    · exact Or.inr h2
  · intro hnv
    rw [Scheduler.setStart_visited]
    exact hnv

/-- Witness for C10: a depth-3 candidate against `max_depth = 1` is
rejected without being marked visited, and the same URL is then admitted
at depth 1. -/
theorem C10_reject_frame_witness :
    ((Scheduler.init 1 false none).add "https://a.test/deep" 3).queue = [] ∧
    "https://a.test/deep" ∉ ((Scheduler.init 1 false none).add "https://a.test/deep" 3).visited ∧
    (((Scheduler.init 1 false none).add "https://a.test/deep" 3).add "https://a.test/deep" 1).queue =
      [("https://a.test/deep", 1)] := by
  have h := C10_reject_frame (Scheduler.init 1 false none) "https://a.test/deep" 3
    (Or.inr (Or.inl (by decide)))
  exact ⟨h.1, h.2.2.2.2 (by decide), by decide⟩

/-- C3: round-trip through the checkpoint log.  Writing one metadata
record, then any pages through `write_page` (any positive flush interval),
then one or more frontier snapshots through `write_state`, and replaying
the log yields exactly the pages in write order, metadata carrying the
written start URL, and the last snapshot written (keep-latest policy).
All data is in the storage lines; flushing only affects the flush
counter. -/
theorem C3_roundtrip (K : Nat) (_hK : 0 < K) (su : String) (cfg : CrawlConfig)
    (ts : String) (pgs : List Page) (sts : List FrontierSnapshot) (hsts : sts ≠ []) :
    (loadLines ((checkpointRun K su cfg ts pgs sts).2).lines).pages = pgs ∧
    (loadLines ((checkpointRun K su cfg ts pgs sts).2).lines).metadata =
      some ⟨su, cfg, ts⟩ ∧
    ((loadLines ((checkpointRun K su cfg ts pgs sts).2).lines).metadata.map
        Metadata.start_url) = some su ∧
    (loadLines ((checkpointRun K su cfg ts pgs sts).2).lines).state =
      some (sts.getLast hsts) := by
  rw [checkpointRun_lines]
  unfold loadLines
  rw [List.foldl_cons, List.foldl_append, foldl_loadStep_pages,
    foldl_loadStep_states sts hsts]
  exact ⟨rfl, rfl, rfl, rfl⟩

/-- Witness for C3: five pages with flush interval 2 and one snapshot
round-trip exactly. -/
theorem C3_roundtrip_witness :
    (loadLines ((checkpointRun 2 "https://a.test/" {} "t0"
        [{ url := "https://a.test/1" }, { url := "https://a.test/2" },
         { url := "https://a.test/3" }, { url := "https://a.test/4" },
         { url := "https://a.test/5" }]
        [{ visited := ["https://a.test/"], queue := [], filtered := [],
           saved_at := "t1" }]).2).lines).pages =
      [{ url := "https://a.test/1" }, { url := "https://a.test/2" },
       { url := "https://a.test/3" }, { url := "https://a.test/4" },
       { url := "https://a.test/5" }] ∧
    (loadLines ((checkpointRun 2 "https://a.test/" {} "t0"
        [{ url := "https://a.test/1" }, { url := "https://a.test/2" },
         { url := "https://a.test/3" }, { url := "https://a.test/4" },
         { url := "https://a.test/5" }]
        [{ visited := ["https://a.test/"], queue := [], filtered := [],
           saved_at := "t1" }]).2).lines).metadata.map Metadata.start_url =
      some "https://a.test/" ∧
    (loadLines ((checkpointRun 2 "https://a.test/" {} "t0"
        [{ url := "https://a.test/1" }, { url := "https://a.test/2" },
         { url := "https://a.test/3" }, { url := "https://a.test/4" },
         { url := "https://a.test/5" }]
        [{ visited := ["https://a.test/"], queue := [], filtered := [],
           saved_at := "t1" }]).2).lines).state =
      some { visited := ["https://a.test/"], queue := [], filtered := [],
             saved_at := "t1" } := by
  have h := C3_roundtrip 2 (by decide) "https://a.test/" {} "t0"
    [{ url := "https://a.test/1" }, { url := "https://a.test/2" },
     { url := "https://a.test/3" }, { url := "https://a.test/4" },
     { url := "https://a.test/5" }]
    [{ visited := ["https://a.test/"], queue := [], filtered := [],
       saved_at := "t1" }] (by decide)
  exact ⟨h.1, h.2.2.1, h.2.2.2⟩

/-- C4: replay never fails — `loadLines` is a total function — and it
skips exactly the blank/unparseable lines: the result over any log equals
the result over its well-formed records alone; in particular a log ending
in a truncated partial record replays to the same state as the log of its
preceding complete records. -/
theorem C4_replay_skips_malformed :
    (∀ lines : List Line, loadLines lines = loadLines (lines.filter Line.isRecord)) ∧
    (∀ pre : List Line, loadLines (pre ++ [Line.malformed]) = loadLines pre) := by
  constructor
  · intro lines
    exact foldl_loadStep_filter lines _
  · intro pre
    unfold loadLines
    rw [List.foldl_append]
    rfl

/-- C6: the checkpoint manager flushes exactly once on every
`write_metadata` and every `write_state`; `write_page` flushes exactly
when the cumulative page count reaches a multiple of `flush_interval`, so
a run of page writes flushes once per `flush_interval` pages. -/
theorem C6_flush_policy (cm : CheckpointManager) (st : Storage) (su : String)
    (cfg : CrawlConfig) (ts : String) (vis : List String) (q : List (String × Nat))
    (fil : List String) (hK : 0 < cm.flush_interval) :
    ((CheckpointManager.write_metadata cm st su cfg ts).2).flushes = st.flushes + 1 ∧
    ((CheckpointManager.write_state cm st vis q fil ts).2).flushes = st.flushes + 1 ∧
    (∀ p : Page, ((CheckpointManager.write_page cm st p).2).flushes =
        st.flushes + (if (cm.page_count + 1) % cm.flush_interval = 0 then 1 else 0)) ∧
    (∀ pgs : List Page, ((CheckpointManager.writePages cm st pgs).2).flushes =
        st.flushes +
          ((cm.page_count + pgs.length) / cm.flush_interval -
            cm.page_count / cm.flush_interval)) :=
  ⟨rfl, rfl, fun p => CheckpointManager.write_page_flushes cm st p,
    fun pgs => CheckpointManager.writePages_flushes pgs cm st hK⟩

/-- Witness for C6: a fresh manager with flush interval 2 flushes once on
a metadata write and twice over five page writes. -/
theorem C6_flush_policy_witness :
    ((CheckpointManager.write_metadata ⟨2, 0⟩ ⟨[], 0⟩ "https://a.test/" {} "t0").2).flushes
        = 1 ∧
    ((CheckpointManager.writePages ⟨2, 0⟩ ⟨[], 0⟩
        [{ url := "https://a.test/1" }, { url := "https://a.test/2" },
         { url := "https://a.test/3" }, { url := "https://a.test/4" },
         { url := "https://a.test/5" }]).2).flushes = 2 := by
  have h := C6_flush_policy ⟨2, 0⟩ ⟨[], 0⟩ "https://a.test/" {} "t0" [] [] [] (by decide)
  exact ⟨h.1, h.2.2.2
    [{ url := "https://a.test/1" }, { url := "https://a.test/2" },
     { url := "https://a.test/3" }, { url := "https://a.test/4" },
     { url := "https://a.test/5" }]⟩

/-- C7: resuming from a log with pages but no frontier snapshot restores
the replayed pages into the results list and re-seeds a fresh frontier by
adding the start URL at depth 0: afterwards the visited set holds exactly
the start URL, so the restored pages' URLs (other than the start URL) are
not excluded from re-crawl.  The start URL is assumed to pass the
configured URL filter (the source's `add` would otherwise divert it to the
filtered set). -/
theorem C7_resume_without_snapshot (maxd : Nat) (fe : Bool)
    (filt : Option CombinedFilter) (start_url : String) (lines : List Line)
    (c' : Crawler)
    (hstate : (loadLines lines).state = none)
    (hfilt : (Scheduler.init maxd fe filt).filterRejects start_url = false)
    (hc : c' = Crawler.resumeFromCheckpoint ⟨Scheduler.init maxd fe filt, []⟩
      start_url lines) :
    c'.pages = (loadLines lines).pages ∧
    c'.scheduler.visited = {start_url} ∧
    c'.scheduler.queue = [(start_url, 0)] ∧
    c'.scheduler.filtered = ∅ ∧
    (∀ p ∈ (loadLines lines).pages, p.url ≠ start_url →
      p.url ∉ c'.scheduler.visited) := by
  subst hc
  have hdom : ((Scheduler.init maxd fe filt).setStart start_url).start_domain
      = some (netloc start_url) := by
    unfold Scheduler.setStart Scheduler.init
    rw [if_pos rfl]
  have hadd := Scheduler.add_admit (Scheduler.init maxd fe filt) start_url 0
    (Finset.not_mem_empty start_url) (Nat.zero_le _)
    (fun hc => hc.2 hdom) hfilt
  unfold Crawler.resumeFromCheckpoint
  dsimp only
  rw [hstate]
  dsimp only
  rw [hadd]
  refine ⟨rfl, rfl, rfl, rfl, ?_⟩
  intro p _ hne hmem
  dsimp only at hmem
  rcases Finset.mem_insert.mp hmem with h | h
  · exact hne h
  · exact absurd h (Finset.not_mem_empty _)

/-- Witness for C7: a log with one page record and a trailing malformed
line but no snapshot resumes into one restored page and a frontier seeded
with the start URL only. -/
theorem C7_resume_without_snapshot_witness :
    (Crawler.resumeFromCheckpoint ⟨Scheduler.init 1 false none, []⟩ "https://a.test/"
        [Line.metadata ⟨"https://a.test/", {}, "t0"⟩,
         Line.page { url := "https://a.test/p1" }, Line.malformed]).pages =
      [{ url := "https://a.test/p1" }] ∧
    (Crawler.resumeFromCheckpoint ⟨Scheduler.init 1 false none, []⟩ "https://a.test/"
        [Line.metadata ⟨"https://a.test/", {}, "t0"⟩,
         Line.page { url := "https://a.test/p1" }, Line.malformed]).scheduler.visited =
      {"https://a.test/"} := by
  have h := C7_resume_without_snapshot 1 false none "https://a.test/"
    [Line.metadata ⟨"https://a.test/", {}, "t0"⟩,
     Line.page { url := "https://a.test/p1" }, Line.malformed]
    (Crawler.resumeFromCheckpoint ⟨Scheduler.init 1 false none, []⟩ "https://a.test/"
      [Line.metadata ⟨"https://a.test/", {}, "t0"⟩,
       Line.page { url := "https://a.test/p1" }, Line.malformed])
    rfl rfl rfl
  exact ⟨h.1, h.2.1⟩

/-- C8: the worker-loop body is total and a fetch, parse, or extract
failure for a popped URL leaves the whole crawl state unchanged — no page
is appended to the results or the checkpoint log, no link enters the
frontier — so the loop (and every other worker) simply continues with the
next item. -/
theorem C8_worker_failure_isolated (cfg : CrawlConfig)
    (fetch : String → Except String (String × Nat))
    (parse : String → String → Except String Parsed)
    (extract : String → String → Except String String)
    (checkpointing : Bool) (st : CrawlState) (url : String) (depth : Nat)
    (ts : String)
    (h : (∃ e, fetch url = Except.error e) ∨
      (∃ r e, fetch url = Except.ok r ∧ parse r.1 url = Except.error e) ∨
      (∃ r parsed e, fetch url = Except.ok r ∧ parse r.1 url = Except.ok parsed ∧
        cfg.extract_text = true ∧ extract r.1 url = Except.error e)) :
    workerStep cfg fetch parse extract checkpointing st url depth ts = st := by
  unfold workerStep
  rcases h with ⟨e, he⟩ | ⟨r, e, hr, he⟩ | ⟨r, parsed, e, hr, hp, hx, he⟩
  · rw [he]
  · rw [hr]
    dsimp only
    rw [he]
  · rw [hr]
    dsimp only
    rw [hp]
    dsimp only
    rw [if_pos hx, he]
    rfl

/-- Witness for C8: a fetcher that always fails leaves a concrete crawl
state untouched. -/
theorem C8_worker_failure_isolated_witness :
    workerStep {} (fun _ => Except.error "boom")
      (fun _ _ => Except.ok {}) (fun _ _ => Except.ok "")
      true
      ⟨Scheduler.init 1 false none, [], ⟨10, 0⟩, ⟨[], 0⟩⟩
      "https://a.test/" 0 "t0" =
      ⟨Scheduler.init 1 false none, [], ⟨10, 0⟩, ⟨[], 0⟩⟩ :=
  C8_worker_failure_isolated {} (fun _ => Except.error "boom")
    (fun _ _ => Except.ok {}) (fun _ _ => Except.ok "") true
    ⟨Scheduler.init 1 false none, [], ⟨10, 0⟩, ⟨[], 0⟩⟩
    "https://a.test/" 0 "t0" (Or.inl ⟨"boom", rfl⟩)

end Yoink
